import Mathlib

/-!
Verification development for the reindex orchestrator in
`internal/cmd/index.go` of opg-search-service.

Go strings are byte sequences; we model them as `List Nat` with each
element a byte value (< 256). External collaborators (the secret store,
the postgres client, `time.Parse`, the per-entity indexers) are passed
as explicit function parameters.
-/

namespace OPG

/-- A Go string, as its byte sequence. -/
abbrev Str := List Nat

/-- Byte sequence of an ASCII Lean string literal. -/
def strBytes (s : String) : Str := s.data.map Char.toNat

/-! ## `url.QueryEscape` (Go standard library, as used by `dbConnectionString`)

Go's `url.QueryEscape` leaves ASCII alphanumerics and `-`, `_`, `.`, `~`
unchanged, turns a space into `+`, and percent-encodes every other byte
with uppercase hex digits. -/

/-- Bytes `url.QueryEscape` leaves unchanged: ASCII alphanumerics and
`-` `_` `.` `~`. -/
def isUnreservedByte (c : Nat) : Bool :=
  (65 ≤ c && c ≤ 90) || (97 ≤ c && c ≤ 122) || (48 ≤ c && c ≤ 57) ||
  c == 45 || c == 95 || c == 46 || c == 126

/-- Uppercase hex digit for a value `< 16`, as a byte. -/
def hexUpperDigit (n : Nat) : Nat := if n < 10 then 48 + n else 55 + n

/-- Go `url.QueryEscape` over bytes. -/
def queryEscape : Str → Str
  | [] => []
  | c :: rest =>
    (if isUnreservedByte c then [c]
     else if c == 32 then [43]
     else [37, hexUpperDigit (c / 16), hexUpperDigit (c % 16)]) ++ queryEscape rest

/-! ## SHA-256 (Go `crypto/sha256.Sum256`, as used by `NewIndexConfig`) -/

/-- Truncate to a 32-bit word. -/
def w32 (n : Nat) : Nat := n % 4294967296

/-- Rotate a 32-bit word right by `n`. -/
def rotr32 (x n : Nat) : Nat := w32 ((x >>> n) ||| (x <<< (32 - n)))

def shaCh (x y z : Nat) : Nat := (x &&& y) ^^^ ((x ^^^ 4294967295) &&& z)

def shaMaj (x y z : Nat) : Nat := (x &&& y) ^^^ (x &&& z) ^^^ (y &&& z)

def bigSigma0 (x : Nat) : Nat := rotr32 x 2 ^^^ rotr32 x 13 ^^^ rotr32 x 22

def bigSigma1 (x : Nat) : Nat := rotr32 x 6 ^^^ rotr32 x 11 ^^^ rotr32 x 25

def smallSigma0 (x : Nat) : Nat := rotr32 x 7 ^^^ rotr32 x 18 ^^^ (x >>> 3)

def smallSigma1 (x : Nat) : Nat := rotr32 x 17 ^^^ rotr32 x 19 ^^^ (x >>> 10)

/-- The SHA-256 round constants (FIPS 180-4, in decimal). -/
def shaK : List Nat :=
  [1116352408, 1899447441, 3049323471, 3921009573, 961987163, 1508970993,
   2453635748, 2870763221, 3624381080, 310598401, 607225278, 1426881987,
   1925078388, 2162078206, 2614888103, 3248222580, 3835390401, 4022224774,
   264347078, 604807628, 770255983, 1249150122, 1555081692, 1996064986,
   2554220882, 2821834349, 2952996808, 3210313671, 3336571891, 3584528711,
   113926993, 338241895, 666307205, 773529912, 1294757372, 1396182291,
   1695183700, 1986661051, 2177026350, 2456956037, 2730485921, 2820302411,
   3259730800, 3345764771, 3516065817, 3600352804, 4094571909, 275423344,
   430227734, 506948616, 659060556, 883997877, 958139571, 1322822218,
   1537002063, 1747873779, 1955562222, 2024104815, 2227730452, 2361852424,
   2428436474, 2756734187, 3204031479, 3329325298]

/-- The SHA-256 initial hash value (FIPS 180-4, in decimal). -/
def shaH0 : List Nat :=
  [1779033703, 3144134277, 1013904242, 2773480762,
   1359893119, 2600822924, 528734635, 1541459225]

/-- Big-endian 8-byte encoding of a length (in bits). -/
def beBytes8 (n : Nat) : Str :=
  [n / 72057594037927936 % 256, n / 281474976710656 % 256, n / 1099511627776 % 256,
   n / 4294967296 % 256, n / 16777216 % 256, n / 65536 % 256, n / 256 % 256, n % 256]

/-- SHA-256 message padding: `0x80`, zeros to 56 mod 64, then the bit length. -/
def padMsg (m : Str) : Str :=
  m ++ [128] ++ List.replicate ((119 - m.length % 64) % 64) 0 ++ beBytes8 (8 * m.length)

/-- Group bytes into big-endian 32-bit words. -/
def bytesToWords : Str → List Nat
  | a :: b :: c :: d :: rest => (a * 16777216 + b * 65536 + c * 256 + d) :: bytesToWords rest
  | _ => []

/-- Extend a 16-word block to the 64-word message schedule (`k` extension steps). -/
def extendSchedule (ws : List Nat) : Nat → List Nat
  | 0 => ws
  | k+1 =>
    let t := ws.length
    let nw := w32 (smallSigma1 (ws.getD (t-2) 0) + ws.getD (t-7) 0 +
                   smallSigma0 (ws.getD (t-15) 0) + ws.getD (t-16) 0)
    extendSchedule (ws ++ [nw]) k

/-- One SHA-256 compression round acting on the 8-word working state. -/
def shaRound (st : List Nat) (kw : Nat × Nat) : List Nat :=
  match st with
  | [a, b, c, d, e, f, g, h] =>
    let t1 := w32 (h + bigSigma1 e + shaCh e f g + kw.1 + kw.2)
    let t2 := w32 (bigSigma0 a + shaMaj a b c)
    [w32 (t1 + t2), a, b, c, w32 (d + t1), e, f, g]
  | _ => st

/-- Compress one 16-word block into the running hash. -/
def compressBlock (h : List Nat) (block : List Nat) : List Nat :=
  let ws := extendSchedule block 48
  let st := (shaK.zip ws).foldl shaRound h
  List.zipWith (fun x y => w32 (x + y)) h st

/-- Process `n` 16-word blocks. -/
def sha256Blocks : Nat → List Nat → List Nat → List Nat
  | 0, _, h => h
  | n+1, ws, h => sha256Blocks n (ws.drop 16) (compressBlock h (ws.take 16))

/-- Big-endian bytes of a 32-bit word. -/
def wordToBytes (w : Nat) : Str := [w / 16777216 % 256, w / 65536 % 256, w / 256 % 256, w % 256]

/-- SHA-256 digest (32 bytes) of a byte sequence: Go `sha256.Sum256`. -/
def sha256 (m : Str) : Str :=
  let padded := padMsg m
  ((sha256Blocks (padded.length / 64) (bytesToWords padded) shaH0).map wordToBytes).flatten

/-! ## Versioned index naming (`NewIndexConfig`) -/

/-- Lowercase hex digit character for a value `< 16` (Go `%x` formatting). -/
def hexLowerDigit (n : Nat) : Char := if n < 10 then Char.ofNat (48 + n) else Char.ofNat (87 + n)

/-- The two lowercase hex characters of one byte. -/
def byteToHexChars (b : Nat) : List Char := [hexLowerDigit (b / 16), hexLowerDigit (b % 16)]

/-- Go `fmt.Sprintf("%x", bs)`: lowercase hex rendering of a byte sequence. -/
def bytesToHexStr (bs : Str) : String := String.mk (bs.map byteToHexChars).flatten

/-- The `IndexConfig` value object of `internal/cmd/index.go`. -/
structure IndexConfig where
  Alias : String
  Name : String
  Config : Str
  deriving DecidableEq, Repr

/-- `NewIndexConfig` on the success path of its `configFunc` (the error path
calls `logger.Fatal`, i.e. exits the process): `Name` is the alias, an
underscore, and the lowercase hex of the first 8 bytes of the SHA-256
digest of the configuration. -/
def NewIndexConfig (aliasStr : String) (config : Str) : IndexConfig :=
  let sum := sha256 config
  { Alias := aliasStr
    Name := aliasStr ++ "_" ++ bytesToHexStr (sum.take 8)
    Config := config }

/-! ## Credential resolution (`dbConnectionString`) -/

/-- Errors out of `dbConnectionString`: a propagated secret-lookup error, or
a configuration error created with `errors.New` carrying the given message. -/
inductive CredErr where
  | secretLookup (e : String)
  | config (msg : String)
  deriving DecidableEq, Repr

/-- The password block of `dbConnectionString`: `pass` starts as
`os.Getenv("SEARCH_SERVICE_DB_PASS")` and, whenever
`SEARCH_SERVICE_DB_PASS_SECRET` is non-empty, is overwritten by the result
of `GetGlobalSecretString` on it, whose error is propagated. -/
def resolvePassword (getenv : String → Str) (getSecret : Str → Except String Str) :
    Except CredErr Str :=
  let passDirect := getenv "SEARCH_SERVICE_DB_PASS"
  let passSecret := getenv "SEARCH_SERVICE_DB_PASS_SECRET"
  if passSecret ≠ [] then
    match getSecret passSecret with
    | .error e => .error (.secretLookup e)
    | .ok v => .ok v
  else .ok passDirect

/-- `(*IndexCommand).dbConnectionString`, with the process environment
(`os.Getenv`, unset variables read as the empty string, here `[]`) and the
secret store (`Secrets.GetGlobalSecretString`) as explicit parameters. -/
def dbConnectionString (getenv : String → Str) (getSecret : Str → Except String Str) :
    Except CredErr Str :=
  match resolvePassword getenv getSecret with
  | .error e => .error e
  | .ok pass =>
    if pass = [] then
      .error (.config "SEARCH_SERVICE_DB_PASS or SEARCH_SERVICE_DB_PASS_SECRET must be specified")
    else
      let user := getenv "SEARCH_SERVICE_DB_USER"
      let host := getenv "SEARCH_SERVICE_DB_HOST"
      let port := getenv "SEARCH_SERVICE_DB_PORT"
      let database := getenv "SEARCH_SERVICE_DB_DATABASE"
      if user = [] then .error (.config "SEARCH_SERVICE_DB_USER must be specified")
      else if host = [] then .error (.config "SEARCH_SERVICE_DB_HOST must be specified")
      else if port = [] then .error (.config "SEARCH_SERVICE_DB_PORT must be specified")
      else if database = [] then .error (.config "SEARCH_SERVICE_DB_DATABASE must be specified")
      else .ok (strBytes "postgres://" ++ user ++ [58] ++ queryEscape pass ++ [64] ++
                host ++ [58] ++ port ++ [47] ++ database)

/-! ## The `Run` method -/

/-- Go `time.Time` as far as `Run` observes it: the zero value is
January 1 year 1 00:00:00 UTC, and `IsZero` tests for exactly it. -/
structure GoTime where
  sec : Int
  nsec : Int
  deriving DecidableEq, Repr

/-- The zero `time.Time` (also what `time.Parse` returns alongside an error). -/
def GoTime.zeroVal : GoTime := ⟨0, 0⟩

/-- Go `Time.IsZero`. -/
def GoTime.IsZero (t : GoTime) : Bool := t.sec == 0 && t.nsec == 0

/-- The `index.Result` reported by a per-entity indexing call. -/
structure Result where
  Successful : Int
  Failed : Int
  Errors : List String
  deriving DecidableEq, Repr

/-- The three mutually exclusive batch strategies of `Run`. -/
inductive Strategy where
  | fromDate (t : GoTime) (batchSize : Int)
  | all (batchSize : Int)
  | byID (fromID toID batchSize : Int)
  deriving DecidableEq, Repr

/-- The command-line flags of the `index` subcommand, after parsing. -/
structure RunFlags where
  all : Bool
  firmOnly : Bool
  personOnly : Bool
  fromID : Int
  toID : Int
  batchSize : Int
  fromDate : String
  deriving DecidableEq, Repr

/-- The flag defaults declared in `Run`:
`-all=false -firm=false -person=false -from=0 -to=100 -batch-size=10000 -from-date=""`. -/
def defaultFlags : RunFlags :=
  { all := false, firmOnly := false, personOnly := false,
    fromID := 0, toID := 100, batchSize := 10000, fromDate := "" }

/-- Errors out of `Run`, tagged by the step that produced them. -/
inductive RunErr where
  | cred (e : CredErr)
  | connect (e : String)
  | ping (e : String)
  | dateParse (e : String)
  | indexing (e : String)
  deriving DecidableEq, Repr

/-- Whether the first list is an initial segment of the second. -/
def charListLe : List Char → List Char → Bool
  | [], _ => true
  | _ :: _, [] => false
  | p :: ps, c :: cs => p == c && charListLe ps cs

/-- Go `strings.HasPrefix(s, pre)`. -/
def goStartsWith (s pre : String) : Bool := charListLe pre.data s.data

/-- The indexer-selection block of `Run`: for each entity type that is
requested (or for both when neither `-firm` nor `-person` is given), scan
`currentIndexNames` in order and keep the first name with the type's
`{alias}_` prefix, stopping at the first match (`break`). An entry is the
entity-type key together with the index name the indexer was built on. -/
def selectIndexers (firmOnly personOnly : Bool) (names : List String) :
    List (String × String) :=
  let noneSet := !firmOnly && !personOnly
  let firmEntry :=
    if firmOnly || noneSet then
      match names.find? (fun n => goStartsWith n "firm_") with
      | some n => [("firm", n)]
      | none => []
    else []
  let personEntry :=
    if personOnly || noneSet then
      match names.find? (fun n => goStartsWith n "person_") with
      | some n => [("person", n)]
      | none => []
    else []
  firmEntry ++ personEntry

/-- The strategy conditional inside `Run`'s loop: date strategy when the
parsed `fromTime` is non-zero, else full reindex when `-all`, else the
identifier range. -/
def chooseStrategy (allFlag : Bool) (fromID toID batchSize : Int) (fromTime : GoTime) :
    Strategy :=
  if !fromTime.IsZero then .fromDate fromTime batchSize
  else if allFlag then .all batchSize
  else .byID fromID toID batchSize

/-- The dispatch loop of `Run` over the selected indexers: each entry gets
the per-entity indexing call (`FromDate`/`All`/`ByID`, abstracted as `call`
on entity type, index name and strategy); an error return aborts
immediately, a returned `Result` is reported and the loop continues. -/
def runIndexers (call : String → String → Strategy → Except String Result)
    (strat : Strategy) : List (String × String) → Except String (List (String × Result))
  | [] => .ok []
  | (name, idxName) :: rest =>
    match call name idxName strat with
    | .error e => .error e
    | .ok r =>
      match runIndexers call strat rest with
      | .error e => .error e
      | .ok rs => .ok ((name, r) :: rs)

/-- The outcome of the dispatch loop as `Run` returns it: an indexing
error is the run's error, otherwise the reported results. -/
def dispatchOutcome (call : String → String → Strategy → Except String Result)
    (strat : Strategy) (sel : List (String × String)) :
    Except RunErr (List (String × Result)) :=
  match runIndexers call strat sel with
  | .error e => .error (.indexing e)
  | .ok rs => .ok rs

/-- `(*IndexCommand).Run` after flag parsing, with the external
collaborators explicit: the environment and secret store (for
`dbConnectionString`), `pgx.Connect` and `conn.Ping`, `time.Parse` with the
RFC3339 layout (returning the parsed time or an error, the Go zero time
standing in on error), and the per-entity indexing capability. The returned
list is the sequence of per-type `Result`s the loop reports. -/
def IndexCommandRun (flags : RunFlags) (currentIndexNames : List String)
    (getenv : String → Str) (getSecret : Str → Except String Str)
    (connect : Str → Except String Unit) (ping : Except String Unit)
    (parse : String → Except String GoTime)
    (call : String → String → Strategy → Except String Result) :
    Except RunErr (List (String × Result)) :=
  match dbConnectionString getenv getSecret with
  | .error e => .error (.cred e)
  | .ok connString =>
    match connect connString with
    | .error e => .error (.connect e)
    | .ok _ =>
      match ping with
      | .error e => .error (.ping e)
      | .ok _ =>
        let indexers := selectIndexers flags.firmOnly flags.personOnly currentIndexNames
        let parsed : Except String GoTime :=
          match parse flags.fromDate with
          | .ok t => .ok t
          | .error e => if flags.fromDate = "" then .ok GoTime.zeroVal else .error e
        match parsed with
        | .error e => .error (.dateParse ("-from-date: " ++ e))
        | .ok fromTime =>
          dispatchOutcome call
            (chooseStrategy flags.all flags.fromID flags.toID flags.batchSize fromTime) indexers

/-! ## Concrete collaborators for evaluating the model -/

/-- An environment assigning the six `SEARCH_SERVICE_DB_*` variables
(empty string means unset, as with `os.Getenv`). -/
def envOf (pass passSecret user host port database : String) : String → Str := fun v =>
  if v = "SEARCH_SERVICE_DB_PASS" then strBytes pass
  else if v = "SEARCH_SERVICE_DB_PASS_SECRET" then strBytes passSecret
  else if v = "SEARCH_SERVICE_DB_USER" then strBytes user
  else if v = "SEARCH_SERVICE_DB_HOST" then strBytes host
  else if v = "SEARCH_SERVICE_DB_PORT" then strBytes port
  else if v = "SEARCH_SERVICE_DB_DATABASE" then strBytes database
  else []

/-- A secret store that fails every lookup. -/
def failingSecretStore : Str → Except String Str := fun _ => .error "secret lookup failed"

/-- A secret store resolving every key to the given value. -/
def constSecretStore (v : String) : Str → Except String Str := fun _ => .ok (strBytes v)

/-- A postgres client whose connect always succeeds. -/
def connectOK : Str → Except String Unit := fun _ => .ok ()

/-- A `time.Parse` stand-in accepting exactly one input string. -/
def parseOnly (s : String) (t : GoTime) : String → Except String GoTime :=
  fun d => if d = s then .ok t else .error "cannot parse"

/-- A `time.Parse` stand-in rejecting every input. -/
def parseNone : String → Except String GoTime := fun _ => .error "cannot parse"

/-- A per-entity indexing capability that always succeeds and records which
strategy it was driven through in `Successful` (1 date, 2 all, 3 id-range). -/
def tagCall : String → String → Strategy → Except String Result := fun _ _ s =>
  .ok { Successful := match s with | .fromDate _ _ => 1 | .all _ => 2 | .byID _ _ _ => 3,
        Failed := 0, Errors := [] }

/-- A deployed-name sequence with one live index per alias. -/
def namesBoth : List String := ["firm_aabbccdd", "person_11223344"]

/-- A per-entity indexing capability whose firm indexer succeeds and whose
other indexers return an infrastructure error. -/
def failPersonCall : String → String → Strategy → Except String Result :=
  fun n _ _ =>
    if n = "firm" then .ok { Successful := 1, Failed := 0, Errors := [] }
    else .error "boom"

/-! ## Sanity checks of the embedded library functions -/

/-- The FIPS 180-4 test vector for the empty message. -/
theorem sha256_empty_vector :
    bytesToHexStr (sha256 []) =
      "e3b0c44298fc1c149afbf4c8996fb92427ae41e4649b934ca495991b7852b855" := rfl

/-- The FIPS 180-4 test vector for "abc". -/
theorem sha256_abc_vector :
    bytesToHexStr (sha256 (strBytes "abc")) =
      "ba7816bf8f01cfea414140de5dae2223b00361a396177a9cb410ff61f20015ad" := rfl

/-- Go `url.QueryEscape("a b/c@d") = "a+b%2Fc%40d"`. -/
theorem queryEscape_sample : queryEscape (strBytes "a b/c@d") = strBytes "a+b%2Fc%40d" := rfl

/-! ## Helper lemmas -/

theorem strDataAppend (s t : String) : (s ++ t).data = s.data ++ t.data := rfl

theorem hexLowerDigit_inj : ∀ m < 16, ∀ n < 16, hexLowerDigit m = hexLowerDigit n → m = n := by
  decide

theorem byteToHexChars_inj : ∀ b1 < 256, ∀ b2 < 256,
    byteToHexChars b1 = byteToHexChars b2 → b1 = b2 := by
  intro b1 h1 b2 h2 h
  simp only [byteToHexChars, List.cons.injEq, and_true] at h
  obtain ⟨hq, hr⟩ := h
  have e1 := hexLowerDigit_inj (b1 / 16) (by omega) (b2 / 16) (by omega) hq
  have e2 := hexLowerDigit_inj (b1 % 16) (by omega) (b2 % 16) (by omega) hr
  omega

theorem bytesToHexFlat_inj : ∀ bs1 bs2 : Str, (∀ b ∈ bs1, b < 256) → (∀ b ∈ bs2, b < 256) →
    (bs1.map byteToHexChars).flatten = (bs2.map byteToHexChars).flatten → bs1 = bs2 := by
  intro bs1
  induction bs1 with
  | nil =>
    intro bs2 _ _ h
    cases bs2 with
    | nil => rfl
    | cons b bs => simp [byteToHexChars] at h
  | cons a as ih =>
    intro bs2 hb1 hb2 h
    cases bs2 with
    | nil => simp [byteToHexChars] at h
    | cons b bs =>
      simp only [List.map_cons, List.flatten_cons, byteToHexChars, List.cons_append,
        List.nil_append, List.cons.injEq] at h
      obtain ⟨h1, h2, h3⟩ := h
      have hab : a = b := by
        have e1 := hexLowerDigit_inj (a / 16)
          (by have := hb1 a (List.mem_cons_self _ _); omega) (b / 16)
          (by have := hb2 b (List.mem_cons_self _ _); omega) h1
        have e2 := hexLowerDigit_inj (a % 16) (by omega) (b % 16) (by omega) h2
        omega
      have htl : as = bs :=
        ih bs (fun x hx => hb1 x (List.mem_cons_of_mem _ hx))
          (fun x hx => hb2 x (List.mem_cons_of_mem _ hx)) h3
      rw [hab, htl]

theorem sha256_bytes_lt (m : Str) : ∀ b ∈ sha256 m, b < 256 := by
  intro b hb
  simp only [sha256, List.mem_flatten, List.mem_map] at hb
  obtain ⟨l, ⟨w, hw, rfl⟩, hbl⟩ := hb
  simp only [wordToBytes, List.mem_cons, List.not_mem_nil, or_false] at hbl
  rcases hbl with h | h | h | h <;> subst h <;> exact Nat.mod_lt _ (by decide)

theorem bytesToHexStr_inj (bs1 bs2 : Str) (hb1 : ∀ b ∈ bs1, b < 256) (hb2 : ∀ b ∈ bs2, b < 256)
    (h : bytesToHexStr bs1 = bytesToHexStr bs2) : bs1 = bs2 := by
  unfold bytesToHexStr at h
  exact bytesToHexFlat_inj bs1 bs2 hb1 hb2 (by injection h)

theorem IndexCommandRun_eq_ok (flags : RunFlags) (names : List String)
    (genv : String → Str) (gsec : Str → Except String Str)
    (connect : Str → Except String Unit) (ping : Except String Unit)
    (parse : String → Except String GoTime)
    (call : String → String → Strategy → Except String Result) (cs : Str) (t : GoTime)
    (hcs : dbConnectionString genv gsec = .ok cs)
    (hcn : connect cs = .ok ())
    (hp : ping = .ok ())
    (hparse : parse flags.fromDate = .ok t) :
    IndexCommandRun flags names genv gsec connect ping parse call =
      dispatchOutcome call (chooseStrategy flags.all flags.fromID flags.toID flags.batchSize t)
        (selectIndexers flags.firmOnly flags.personOnly names) := by
  unfold IndexCommandRun
  simp only [hcs, hcn, hp, hparse]

theorem IndexCommandRun_eq_dateErr (flags : RunFlags) (names : List String)
    (genv : String → Str) (gsec : Str → Except String Str)
    (connect : Str → Except String Unit) (ping : Except String Unit)
    (parse : String → Except String GoTime)
    (call : String → String → Strategy → Except String Result) (cs : Str) (e : String)
    (hcs : dbConnectionString genv gsec = .ok cs)
    (hcn : connect cs = .ok ())
    (hp : ping = .ok ())
    (hne : flags.fromDate ≠ "")
    (hparse : parse flags.fromDate = .error e) :
    IndexCommandRun flags names genv gsec connect ping parse call =
      .error (.dateParse ("-from-date: " ++ e)) := by
  unfold IndexCommandRun
  simp only [hcs, hcn, hp, hparse]
  simp [hne]

theorem IndexCommandRun_eq_emptyDate (flags : RunFlags) (names : List String)
    (genv : String → Str) (gsec : Str → Except String Str)
    (connect : Str → Except String Unit) (ping : Except String Unit)
    (parse : String → Except String GoTime)
    (call : String → String → Strategy → Except String Result) (cs : Str) (e : String)
    (hcs : dbConnectionString genv gsec = .ok cs)
    (hcn : connect cs = .ok ())
    (hp : ping = .ok ())
    (hne : flags.fromDate = "")
    (hparse : parse flags.fromDate = .error e) :
    IndexCommandRun flags names genv gsec connect ping parse call =
      dispatchOutcome call
        (chooseStrategy flags.all flags.fromID flags.toID flags.batchSize GoTime.zeroVal)
        (selectIndexers flags.firmOnly flags.personOnly names) := by
  unfold IndexCommandRun
  simp only [hcs, hcn, hp, hparse]
  simp [hne]

theorem runIndexers_append_error (call : String → String → Strategy → Except String Result)
    (strat : Strategy) (pre rest : List (String × String)) (n0 i0 : String) (e : String)
    (hpre : ∀ p ∈ pre, ∃ r, call p.1 p.2 strat = .ok r)
    (herr : call n0 i0 strat = .error e) :
    runIndexers call strat (pre ++ (n0, i0) :: rest) = .error e := by
  induction pre with
  | nil => simp [runIndexers, herr]
  | cons q qs ih =>
    obtain ⟨n, i⟩ := q
    obtain ⟨r, hr⟩ := hpre (n, i) (List.mem_cons_self _ _)
    have h2 := ih (fun p hp => hpre p (List.mem_cons_of_mem _ hp))
    simp only [List.cons_append, runIndexers, hr, List.append_eq, h2]

theorem runIndexers_all_ok (call : String → String → Strategy → Except String Result)
    (strat : Strategy) (l : List (String × String))
    (hall : ∀ p ∈ l, ∃ r, call p.1 p.2 strat = .ok r) :
    ∃ rs, runIndexers call strat l = .ok rs := by
  induction l with
  | nil => exact ⟨[], rfl⟩
  | cons q qs ih =>
    obtain ⟨n, i⟩ := q
    obtain ⟨r, hr⟩ := hall (n, i) (List.mem_cons_self _ _)
    obtain ⟨rs, hrs⟩ := ih (fun p hp => hall p (List.mem_cons_of_mem _ hp))
    exact ⟨(n, r) :: rs, by simp [runIndexers, hr, hrs]⟩

/-! ## Claims -/

/-- Claim C3: `NewIndexConfig` produces `Name` equal to the alias, an
underscore, and the hex encoding of the first 8 bytes of the SHA-256 digest
of the configuration; the name is a pure deterministic function of alias and
config, and distinct configs yield distinct names except in the
digest-collision case (here: when the first 8 digest bytes differ, the names
differ). -/
theorem NewIndexConfig_spec (a : String) (c c1 c2 : Str)
    (hcol : (sha256 c1).take 8 ≠ (sha256 c2).take 8) :
    (NewIndexConfig a c).Name = a ++ "_" ++ bytesToHexStr ((sha256 c).take 8)
  ∧ (NewIndexConfig a c).Alias = a
  ∧ (NewIndexConfig a c).Config = c
  ∧ (∀ a2 c3, a = a2 → c = c3 → (NewIndexConfig a c).Name = (NewIndexConfig a2 c3).Name)
  ∧ (NewIndexConfig a c1).Name ≠ (NewIndexConfig a c2).Name := by
  refine ⟨rfl, rfl, rfl, ?_, ?_⟩
  · intro a2 c3 h1 h2
    rw [h1, h2]
  · intro h
    simp only [NewIndexConfig] at h
    have hd := congrArg String.data h
    rw [strDataAppend, strDataAppend, strDataAppend, strDataAppend] at hd
    have hd2 := List.append_cancel_left hd
    have hx : bytesToHexStr ((sha256 c1).take 8) = bytesToHexStr ((sha256 c2).take 8) := by
      cases hs1 : bytesToHexStr ((sha256 c1).take 8) with
      | mk d1 =>
        cases hs2 : bytesToHexStr ((sha256 c2).take 8) with
        | mk d2 =>
          rw [hs1, hs2] at hd2
          exact congrArg String.mk (by simpa using hd2)
    exact hcol (bytesToHexStr_inj _ _
      (fun b hb => sha256_bytes_lt c1 b (List.take_subset _ _ hb))
      (fun b hb => sha256_bytes_lt c2 b (List.take_subset _ _ hb)) hx)

/-- Claim C3, witness: configs `[]` and `[0]` have different digests and
different names; the name for the empty config is the known SHA-256 digest
of the empty message. -/
theorem NewIndexConfig_spec_witness :
    (NewIndexConfig "firm" []).Name ≠ (NewIndexConfig "firm" [0]).Name ∧
    (NewIndexConfig "firm" []).Name = "firm_e3b0c44298fc1c14" :=
  ⟨(NewIndexConfig_spec "firm" [] [] [0] (by decide)).2.2.2.2, rfl⟩

/-- Claim C2, amended: `dbConnectionString` reads the password from
`SEARCH_SERVICE_DB_PASS`, but whenever `SEARCH_SERVICE_DB_PASS_SECRET` is
non-empty the password is resolved through `GetGlobalSecretString`
(propagating a lookup error), overriding any directly supplied password; the
direct password is used only when the secret-reference variable is empty. -/
theorem dbConnectionString_password_order (genv : String → Str)
    (gsec : Str → Except String Str) :
    (genv "SEARCH_SERVICE_DB_PASS_SECRET" = [] →
       resolvePassword genv gsec = .ok (genv "SEARCH_SERVICE_DB_PASS"))
  ∧ (∀ v, genv "SEARCH_SERVICE_DB_PASS_SECRET" ≠ [] →
       gsec (genv "SEARCH_SERVICE_DB_PASS_SECRET") = .ok v →
       resolvePassword genv gsec = .ok v)
  ∧ (∀ e, genv "SEARCH_SERVICE_DB_PASS_SECRET" ≠ [] →
       gsec (genv "SEARCH_SERVICE_DB_PASS_SECRET") = .error e →
       dbConnectionString genv gsec = .error (.secretLookup e)) := by
  refine ⟨fun h => ?_, fun v hne hok => ?_, fun e hne herr => ?_⟩
  · unfold resolvePassword; simp [h]
  · unfold resolvePassword; simp [hne, hok]
  · unfold dbConnectionString resolvePassword; simp [hne, herr]

/-- Claim C2, witness: with a non-empty direct password and a set secret
reference, the secret value wins. -/
theorem dbConnectionString_password_order_witness :
    resolvePassword (envOf "direct" "key" "u" "h" "p" "d") (constSecretStore "sek") =
      .ok (strBytes "sek") :=
  (dbConnectionString_password_order (envOf "direct" "key" "u" "h" "p" "d")
      (constSecretStore "sek")).2.1 (strBytes "sek") (by decide) rfl

/-- Claim C2, counterexample to the claim as stated: with the non-empty
direct password "direct" and the secret reference "key" resolving to "sek",
the connection string carries the secret value, not the direct one. -/
theorem dbConnectionString_password_order_cex :
    envOf "direct" "key" "u" "h" "p" "d" "SEARCH_SERVICE_DB_PASS" = strBytes "direct" ∧
    strBytes "direct" ≠ [] ∧
    dbConnectionString (envOf "direct" "key" "u" "h" "p" "d") (constSecretStore "sek") =
      .ok (strBytes "postgres://u:sek@h:p/d") ∧
    strBytes "postgres://u:sek@h:p/d" ≠ strBytes "postgres://u:direct@h:p/d" :=
  ⟨rfl, by decide, rfl, by decide⟩

/-- Claim C10: when `SEARCH_SERVICE_DB_PASS_SECRET` is set and the secret
lookup succeeds with the empty string, `dbConnectionString` fails with the
configuration error naming both password variables, regardless of what
`SEARCH_SERVICE_DB_PASS` holds. -/
theorem dbConnectionString_empty_secret_error (genv : String → Str)
    (gsec : Str → Except String Str)
    (hs : genv "SEARCH_SERVICE_DB_PASS_SECRET" ≠ [])
    (hok : gsec (genv "SEARCH_SERVICE_DB_PASS_SECRET") = .ok []) :
    dbConnectionString genv gsec =
      .error (.config "SEARCH_SERVICE_DB_PASS or SEARCH_SERVICE_DB_PASS_SECRET must be specified") := by
  unfold dbConnectionString resolvePassword
  simp only [hs, if_true, hok, ne_eq, not_false_eq_true, if_pos]

/-- Claim C10, witness: the empty resolved secret overrides the non-empty
direct password "direct" and still yields the configuration error. -/
theorem dbConnectionString_empty_secret_error_witness :
    dbConnectionString (envOf "direct" "key" "u" "h" "p" "d") (fun _ => .ok []) =
      .error (.config "SEARCH_SERVICE_DB_PASS or SEARCH_SERVICE_DB_PASS_SECRET must be specified") :=
  dbConnectionString_empty_secret_error (envOf "direct" "key" "u" "h" "p" "d")
    (fun _ => .ok []) (by decide) rfl

/-- Claim C7: when the resolved password is empty the error names both
password variables; user, host, port and database are checked in that fixed
order, and the first missing one determines the error, which names that
specific variable. -/
theorem dbConnectionString_config_error_order (genv : String → Str)
    (gsec : Str → Except String Str) :
    (resolvePassword genv gsec = .ok [] →
       dbConnectionString genv gsec =
         .error (.config "SEARCH_SERVICE_DB_PASS or SEARCH_SERVICE_DB_PASS_SECRET must be specified"))
  ∧ (∀ pass, resolvePassword genv gsec = .ok pass → pass ≠ [] →
       genv "SEARCH_SERVICE_DB_USER" = [] →
       dbConnectionString genv gsec = .error (.config "SEARCH_SERVICE_DB_USER must be specified"))
  ∧ (∀ pass, resolvePassword genv gsec = .ok pass → pass ≠ [] →
       genv "SEARCH_SERVICE_DB_USER" ≠ [] → genv "SEARCH_SERVICE_DB_HOST" = [] →
       dbConnectionString genv gsec = .error (.config "SEARCH_SERVICE_DB_HOST must be specified"))
  ∧ (∀ pass, resolvePassword genv gsec = .ok pass → pass ≠ [] →
       genv "SEARCH_SERVICE_DB_USER" ≠ [] → genv "SEARCH_SERVICE_DB_HOST" ≠ [] →
       genv "SEARCH_SERVICE_DB_PORT" = [] →
       dbConnectionString genv gsec = .error (.config "SEARCH_SERVICE_DB_PORT must be specified"))
  ∧ (∀ pass, resolvePassword genv gsec = .ok pass → pass ≠ [] →
       genv "SEARCH_SERVICE_DB_USER" ≠ [] → genv "SEARCH_SERVICE_DB_HOST" ≠ [] →
       genv "SEARCH_SERVICE_DB_PORT" ≠ [] → genv "SEARCH_SERVICE_DB_DATABASE" = [] →
       dbConnectionString genv gsec = .error (.config "SEARCH_SERVICE_DB_DATABASE must be specified")) := by
  refine ⟨fun h => ?_, fun pass h h1 h2 => ?_, fun pass h h1 h2 h3 => ?_,
    fun pass h h1 h2 h3 h4 => ?_, fun pass h h1 h2 h3 h4 h5 => ?_⟩ <;>
    · unfold dbConnectionString
      rw [h]
      simp_all

/-- Claim C7, witness: with the password set and only `SEARCH_SERVICE_DB_USER`
unset, the error names `SEARCH_SERVICE_DB_USER` specifically. -/
theorem dbConnectionString_config_error_order_witness :
    dbConnectionString (envOf "pw" "" "" "h" "p" "d") failingSecretStore =
      .error (.config "SEARCH_SERVICE_DB_USER must be specified") :=
  (dbConnectionString_config_error_order (envOf "pw" "" "" "h" "p" "d")
      failingSecretStore).2.1 (strBytes "pw") rfl (by decide) rfl

/-- Claim C6: whenever `dbConnectionString` succeeds, the resolved password
and all four other fields are non-empty, and the result is exactly
`postgres://{user}:{url-escaped-password}@{host}:{port}/{database}` with
only the password percent-encoded (user, host, port, database verbatim). -/
theorem dbConnectionString_success_shape (genv : String → Str)
    (gsec : Str → Except String Str) (s : Str)
    (h : dbConnectionString genv gsec = .ok s) :
    ∃ pass, resolvePassword genv gsec = .ok pass ∧ pass ≠ [] ∧
      genv "SEARCH_SERVICE_DB_USER" ≠ [] ∧ genv "SEARCH_SERVICE_DB_HOST" ≠ [] ∧
      genv "SEARCH_SERVICE_DB_PORT" ≠ [] ∧ genv "SEARCH_SERVICE_DB_DATABASE" ≠ [] ∧
      s = strBytes "postgres://" ++ genv "SEARCH_SERVICE_DB_USER" ++ [58] ++
          queryEscape pass ++ [64] ++ genv "SEARCH_SERVICE_DB_HOST" ++ [58] ++
          genv "SEARCH_SERVICE_DB_PORT" ++ [47] ++ genv "SEARCH_SERVICE_DB_DATABASE" := by
  unfold dbConnectionString at h
  rcases hp : resolvePassword genv gsec with e | pass
  · rw [hp] at h; exact absurd h (by simp)
  · rw [hp] at h
    refine ⟨pass, rfl, ?_⟩
    split at h <;> simp_all
    split at h <;> simp_all
    split at h <;> simp_all
    split at h <;> simp_all
    split at h <;> simp_all
    split at h <;> simp_all

/-- Claim C6, witness: the password `"p w/@"` is percent-encoded (as
`p+w%2F%40`) while user, host, port and database appear verbatim. -/
theorem dbConnectionString_success_shape_witness :
    ∃ pass, resolvePassword (envOf "p w/@" "" "u" "h" "p" "d") failingSecretStore = .ok pass ∧
      pass ≠ [] ∧
      envOf "p w/@" "" "u" "h" "p" "d" "SEARCH_SERVICE_DB_USER" ≠ [] ∧
      envOf "p w/@" "" "u" "h" "p" "d" "SEARCH_SERVICE_DB_HOST" ≠ [] ∧
      envOf "p w/@" "" "u" "h" "p" "d" "SEARCH_SERVICE_DB_PORT" ≠ [] ∧
      envOf "p w/@" "" "u" "h" "p" "d" "SEARCH_SERVICE_DB_DATABASE" ≠ [] ∧
      strBytes "postgres://u:p+w%2F%40@h:p/d" =
        strBytes "postgres://" ++ envOf "p w/@" "" "u" "h" "p" "d" "SEARCH_SERVICE_DB_USER" ++
          [58] ++ queryEscape pass ++ [64] ++
          envOf "p w/@" "" "u" "h" "p" "d" "SEARCH_SERVICE_DB_HOST" ++ [58] ++
          envOf "p w/@" "" "u" "h" "p" "d" "SEARCH_SERVICE_DB_PORT" ++ [47] ++
          envOf "p w/@" "" "u" "h" "p" "d" "SEARCH_SERVICE_DB_DATABASE" :=
  dbConnectionString_success_shape (envOf "p w/@" "" "u" "h" "p" "d") failingSecretStore
    (strBytes "postgres://u:p+w%2F%40@h:p/d") rfl

/-- Claim C1, amended: exactly one batch strategy executes per run; a
non-empty `-from-date` that parses to a NON-ZERO timestamp takes precedence
over `-all` (the date strategy runs regardless of `-all`), which takes
precedence over the default identifier-range strategy run with the
`-from`/`-to` bounds. -/
theorem run_strategy_precedence (flags : RunFlags) (names : List String)
    (genv : String → Str) (gsec : Str → Except String Str)
    (connect : Str → Except String Unit) (ping : Except String Unit)
    (parse : String → Except String GoTime)
    (call : String → String → Strategy → Except String Result) (cs : Str)
    (hcs : dbConnectionString genv gsec = .ok cs)
    (hcn : connect cs = .ok ())
    (hp : ping = .ok ()) :
    (∀ t, flags.fromDate ≠ "" → parse flags.fromDate = .ok t → t.IsZero = false →
       IndexCommandRun flags names genv gsec connect ping parse call =
         dispatchOutcome call (.fromDate t flags.batchSize)
           (selectIndexers flags.firmOnly flags.personOnly names))
  ∧ (∀ t, parse flags.fromDate = .ok t → t.IsZero = true → flags.all = true →
       IndexCommandRun flags names genv gsec connect ping parse call =
         dispatchOutcome call (.all flags.batchSize)
           (selectIndexers flags.firmOnly flags.personOnly names))
  ∧ (∀ t, parse flags.fromDate = .ok t → t.IsZero = true → flags.all = false →
       IndexCommandRun flags names genv gsec connect ping parse call =
         dispatchOutcome call (.byID flags.fromID flags.toID flags.batchSize)
           (selectIndexers flags.firmOnly flags.personOnly names)) := by
  refine ⟨fun t _ hparse hz => ?_, fun t hparse hz hall => ?_, fun t hparse hz hall => ?_⟩
  · rw [IndexCommandRun_eq_ok flags names genv gsec connect ping parse call cs t hcs hcn hp hparse]
    simp [chooseStrategy, hz]
  · rw [IndexCommandRun_eq_ok flags names genv gsec connect ping parse call cs t hcs hcn hp hparse]
    simp [chooseStrategy, hz, hall]
  · rw [IndexCommandRun_eq_ok flags names genv gsec connect ping parse call cs t hcs hcn hp hparse]
    simp [chooseStrategy, hz, hall]

/-- Claim C1, witness: with `-all` set AND a parseable non-zero
`-from-date`, the date strategy is dispatched. -/
theorem run_strategy_precedence_witness :
    IndexCommandRun { defaultFlags with all := true, fromDate := "2020-01-02T03:04:05Z" }
      namesBoth (envOf "pw" "" "u" "h" "p" "d") failingSecretStore connectOK (.ok ())
      (parseOnly "2020-01-02T03:04:05Z" ⟨1577934245, 0⟩) tagCall =
      dispatchOutcome tagCall (.fromDate ⟨1577934245, 0⟩ 10000)
        (selectIndexers false false namesBoth) :=
  (run_strategy_precedence { defaultFlags with all := true, fromDate := "2020-01-02T03:04:05Z" }
      namesBoth (envOf "pw" "" "u" "h" "p" "d") failingSecretStore connectOK (.ok ())
      (parseOnly "2020-01-02T03:04:05Z" ⟨1577934245, 0⟩) tagCall
      (strBytes "postgres://u:pw@h:p/d") rfl rfl rfl).1
    ⟨1577934245, 0⟩ (by decide) rfl rfl

/-- Claim C1, counterexample to the claim as stated: the RFC3339 rendering
of the zero timestamp is non-empty and parseable, yet the run dispatches the
`-all` strategy (every reported `Successful` carries `tagCall`'s tag 2 for
the all strategy, not tag 1 for the date strategy). -/
theorem run_strategy_precedence_cex :
    ("0001-01-01T00:00:00Z" : String) ≠ "" ∧
    parseOnly "0001-01-01T00:00:00Z" GoTime.zeroVal "0001-01-01T00:00:00Z" =
      .ok GoTime.zeroVal ∧
    IndexCommandRun { defaultFlags with all := true, fromDate := "0001-01-01T00:00:00Z" }
      namesBoth (envOf "pw" "" "u" "h" "p" "d") failingSecretStore connectOK (.ok ())
      (parseOnly "0001-01-01T00:00:00Z" GoTime.zeroVal) tagCall =
      .ok [("firm", { Successful := 2, Failed := 0, Errors := [] }),
           ("person", { Successful := 2, Failed := 0, Errors := [] })] ∧
    ({ Successful := 2, Failed := 0, Errors := [] } : Result) ≠
      { Successful := 1, Failed := 0, Errors := [] } :=
  ⟨by decide, rfl, rfl, by decide⟩

/-- Claim C9: a non-empty `-from-date` that parses to the ZERO timestamp
does not select the date strategy; the run falls through to `-all` or the
identifier range. -/
theorem run_zero_date_not_date_strategy (flags : RunFlags) (names : List String)
    (genv : String → Str) (gsec : Str → Except String Str)
    (connect : Str → Except String Unit) (ping : Except String Unit)
    (parse : String → Except String GoTime)
    (call : String → String → Strategy → Except String Result) (cs : Str) (t : GoTime)
    (hcs : dbConnectionString genv gsec = .ok cs)
    (hcn : connect cs = .ok ())
    (hp : ping = .ok ())
    (_hne : flags.fromDate ≠ "")
    (hparse : parse flags.fromDate = .ok t)
    (hz : t.IsZero = true) :
    IndexCommandRun flags names genv gsec connect ping parse call =
      dispatchOutcome call
        (if flags.all then .all flags.batchSize
         else .byID flags.fromID flags.toID flags.batchSize)
        (selectIndexers flags.firmOnly flags.personOnly names) := by
  rw [IndexCommandRun_eq_ok flags names genv gsec connect ping parse call cs t hcs hcn hp hparse]
  simp [chooseStrategy, hz]

/-- Claim C9, witness: `-from-date "0001-01-01T00:00:00Z"` without `-all`
falls through to the id-range strategy. -/
theorem run_zero_date_not_date_strategy_witness :
    IndexCommandRun { defaultFlags with fromDate := "0001-01-01T00:00:00Z" }
      namesBoth (envOf "pw" "" "u" "h" "p" "d") failingSecretStore connectOK (.ok ())
      (parseOnly "0001-01-01T00:00:00Z" GoTime.zeroVal) tagCall =
      dispatchOutcome tagCall
        (if ({ defaultFlags with fromDate := "0001-01-01T00:00:00Z" } : RunFlags).all then
           .all 10000
         else .byID 0 100 10000)
        (selectIndexers false false namesBoth) :=
  run_zero_date_not_date_strategy { defaultFlags with fromDate := "0001-01-01T00:00:00Z" }
    namesBoth (envOf "pw" "" "u" "h" "p" "d") failingSecretStore connectOK (.ok ())
    (parseOnly "0001-01-01T00:00:00Z" GoTime.zeroVal) tagCall
    (strBytes "postgres://u:pw@h:p/d") GoTime.zeroVal
    rfl rfl rfl (by decide) rfl rfl

/-- Claim C8: a non-empty `-from-date` that fails to parse makes `Run`
return the wrapped parse error for every per-entity indexing capability
(so no per-entity indexing call can be observed); an empty `-from-date`
whose parse fails (as Go's `time.Parse` does on `""`) is no error and the
run proceeds with the zero time. -/
theorem run_bad_date_aborts (flags : RunFlags) (names : List String)
    (genv : String → Str) (gsec : Str → Except String Str)
    (connect : Str → Except String Unit) (ping : Except String Unit)
    (parse : String → Except String GoTime) (cs : Str)
    (hcs : dbConnectionString genv gsec = .ok cs)
    (hcn : connect cs = .ok ())
    (hp : ping = .ok ()) :
    (∀ e, flags.fromDate ≠ "" → parse flags.fromDate = .error e →
       ∀ call, IndexCommandRun flags names genv gsec connect ping parse call =
         .error (.dateParse ("-from-date: " ++ e)))
  ∧ (∀ e, flags.fromDate = "" → parse flags.fromDate = .error e →
       ∀ call, IndexCommandRun flags names genv gsec connect ping parse call =
         dispatchOutcome call
           (chooseStrategy flags.all flags.fromID flags.toID flags.batchSize GoTime.zeroVal)
           (selectIndexers flags.firmOnly flags.personOnly names)) := by
  refine ⟨fun e hne hparse call => ?_, fun e hemp hparse call => ?_⟩
  · exact IndexCommandRun_eq_dateErr flags names genv gsec connect ping parse call cs e
      hcs hcn hp hne hparse
  · exact IndexCommandRun_eq_emptyDate flags names genv gsec connect ping parse call cs e
      hcs hcn hp hemp hparse

/-- Claim C8, witness: `-from-date "garbage"` aborts with the wrapped parse
error. -/
theorem run_bad_date_aborts_witness :
    IndexCommandRun { defaultFlags with fromDate := "garbage" } namesBoth
      (envOf "pw" "" "u" "h" "p" "d") failingSecretStore connectOK (.ok ()) parseNone tagCall =
      .error (.dateParse ("-from-date: " ++ "cannot parse")) :=
  (run_bad_date_aborts { defaultFlags with fromDate := "garbage" } namesBoth
      (envOf "pw" "" "u" "h" "p" "d") failingSecretStore connectOK (.ok ()) parseNone
      (strBytes "postgres://u:pw@h:p/d") rfl rfl rfl).1 "cannot parse" (by decide) rfl tagCall

/-- Claim C4: an infrastructure error from a per-entity indexing call makes
`Run` return exactly that error, for every continuation of the selection
list and every behaviour of the capability on it (so no later entity type's
indexer is invoked and no `Result` for the failed type is reported); when
every call returns a `Result`, whatever per-record `Errors` it carries, the
run succeeds. -/
theorem run_fail_fast (flags : RunFlags) (names : List String)
    (genv : String → Str) (gsec : Str → Except String Str)
    (connect : Str → Except String Unit) (ping : Except String Unit)
    (parse : String → Except String GoTime)
    (call : String → String → Strategy → Except String Result) (cs : Str) (t : GoTime)
    (hcs : dbConnectionString genv gsec = .ok cs)
    (hcn : connect cs = .ok ())
    (hp : ping = .ok ())
    (hparse : parse flags.fromDate = .ok t) :
    (∀ pre rest n0 i0 e,
       selectIndexers flags.firmOnly flags.personOnly names = pre ++ (n0, i0) :: rest →
       (∀ p ∈ pre, ∃ r,
          call p.1 p.2 (chooseStrategy flags.all flags.fromID flags.toID flags.batchSize t) =
            .ok r) →
       call n0 i0 (chooseStrategy flags.all flags.fromID flags.toID flags.batchSize t) =
         .error e →
       IndexCommandRun flags names genv gsec connect ping parse call = .error (.indexing e))
  ∧ ((∀ p ∈ selectIndexers flags.firmOnly flags.personOnly names, ∃ r,
        call p.1 p.2 (chooseStrategy flags.all flags.fromID flags.toID flags.batchSize t) =
          .ok r) →
     ∃ rs, IndexCommandRun flags names genv gsec connect ping parse call = .ok rs) := by
  constructor
  · intro pre rest n0 i0 e hsel hpre herr
    rw [IndexCommandRun_eq_ok flags names genv gsec connect ping parse call cs t hcs hcn hp hparse]
    rw [hsel]
    unfold dispatchOutcome
    rw [runIndexers_append_error call _ pre rest n0 i0 e hpre herr]
  · intro hall
    obtain ⟨rs, hrs⟩ := runIndexers_all_ok call _ _ hall
    refine ⟨rs, ?_⟩
    rw [IndexCommandRun_eq_ok flags names genv gsec connect ping parse call cs t hcs hcn hp hparse]
    unfold dispatchOutcome
    rw [hrs]

/-- Claim C4, witness: the firm indexer succeeds but the person indexer
returns an infrastructure error, and the run returns exactly that error. -/
theorem run_fail_fast_witness :
    IndexCommandRun defaultFlags namesBoth (envOf "pw" "" "u" "h" "p" "d") failingSecretStore
      connectOK (.ok ()) (parseOnly "" GoTime.zeroVal) failPersonCall =
      .error (.indexing "boom") :=
  (run_fail_fast defaultFlags namesBoth (envOf "pw" "" "u" "h" "p" "d") failingSecretStore
      connectOK (.ok ()) (parseOnly "" GoTime.zeroVal) failPersonCall
      (strBytes "postgres://u:pw@h:p/d") GoTime.zeroVal rfl rfl rfl rfl).1
    [("firm", "firm_aabbccdd")] [] "person" "person_11223344" "boom" rfl
    (by rintro p hp
        simp only [List.mem_singleton] at hp
        subst hp
        exact ⟨{ Successful := 1, Failed := 0, Errors := [] }, rfl⟩)
    rfl

/-- Claim C5: an entry for an entity type is present exactly when the type
is requested (or neither flag is given, which selects all known types) and
`find?` locates the first deployed name with the type's prefix — so the
chosen name is the first match and a type with no matching deployed name is
silently omitted; the selection's keys form a sublist of
`["firm", "person"]` (at most one indexer per type); and an empty selection
makes `Run` report nothing and succeed. -/
theorem selectIndexers_spec (fo po : Bool) (names : List String) :
    (∀ n, ("firm", n) ∈ selectIndexers fo po names ↔
       ((fo = true ∨ (fo = false ∧ po = false)) ∧
        names.find? (fun m => goStartsWith m "firm_") = some n))
  ∧ (∀ n, ("person", n) ∈ selectIndexers fo po names ↔
       ((po = true ∨ (fo = false ∧ po = false)) ∧
        names.find? (fun m => goStartsWith m "person_") = some n))
  ∧ List.Sublist ((selectIndexers fo po names).map Prod.fst) ["firm", "person"]
  ∧ (∀ (genv : String → Str) (gsec : Str → Except String Str)
       (connect : Str → Except String Unit) (ping : Except String Unit)
       (parse : String → Except String GoTime)
       (call : String → String → Strategy → Except String Result)
       (flags : RunFlags) (cs : Str) (t : GoTime),
       dbConnectionString genv gsec = .ok cs → connect cs = .ok () → ping = .ok () →
       parse flags.fromDate = .ok t →
       selectIndexers flags.firmOnly flags.personOnly names = [] →
       IndexCommandRun flags names genv gsec connect ping parse call = .ok []) := by
  refine ⟨?_, ?_, ?_, ?_⟩
  · intro n
    unfold selectIndexers
    cases fo <;> cases po <;>
      rcases hf : names.find? (fun m => goStartsWith m "firm_") with _ | n1 <;>
      rcases hq : names.find? (fun m => goStartsWith m "person_") with _ | n2 <;>
      simp_all <;> exact eq_comm
  · intro n
    unfold selectIndexers
    cases fo <;> cases po <;>
      rcases hf : names.find? (fun m => goStartsWith m "firm_") with _ | n1 <;>
      rcases hq : names.find? (fun m => goStartsWith m "person_") with _ | n2 <;>
      simp_all <;> exact eq_comm
  · unfold selectIndexers
    cases fo <;> cases po <;>
      rcases hf : names.find? (fun m => goStartsWith m "firm_") with _ | n1 <;>
      rcases hq : names.find? (fun m => goStartsWith m "person_") with _ | n2 <;>
      simp_all
  · intro genv gsec connect ping parse call flags cs t hcs hcn hp hparse hsel
    rw [IndexCommandRun_eq_ok flags names genv gsec connect ping parse call cs t hcs hcn hp hparse]
    rw [hsel]
    rfl

/-- Claim C5, witness: with neither flag given the firm entry is the first
`firm_`-matching deployed name, and with no matching deployed name at all
the run reports nothing and succeeds. -/
theorem selectIndexers_spec_witness :
    (("firm", "firm_aabbccdd") ∈ selectIndexers false false namesBoth) ∧
    IndexCommandRun defaultFlags ["other_x"] (envOf "pw" "" "u" "h" "p" "d") failingSecretStore
      connectOK (.ok ()) (parseOnly "" GoTime.zeroVal) tagCall = .ok [] :=
  ⟨((selectIndexers_spec false false namesBoth).1 "firm_aabbccdd").mpr
      ⟨Or.inr ⟨rfl, rfl⟩, rfl⟩,
   (selectIndexers_spec false false ["other_x"]).2.2.2 (envOf "pw" "" "u" "h" "p" "d")
      failingSecretStore connectOK (.ok ()) (parseOnly "" GoTime.zeroVal) tagCall defaultFlags
      (strBytes "postgres://u:pw@h:p/d") GoTime.zeroVal rfl rfl rfl rfl rfl⟩

end OPG
